import Mathlib

/-!
Verification of the TF-IDF image search engine.

The repository has two Python source files:
  - image_indexer.py : offline index builder writing the image_documents
    (document metadata) and image_terms (inverted index) collections;
  - backend/main.py  : the query scorer (search_images) serving top-k
    TF-IDF results.

This file is a shallow embedding of both.  Python floats together with
math.log are modelled by an arbitrary linear ordered field S with a
function slog : S -> S standing for the natural logarithm; every theorem
instantiates S := Real and slog := Real.log, the idealisation of the
float computation.  Python dicts (including defaultdict and Counter,
whose iteration order is insertion order) are modelled by association
lists with insertion-order preserving update.  MongoDB collections are
modelled by lists: the source collection as a list of source records,
the two output collections as the lists the builder produced.  BSON
ObjectId values are modelled by the DocId type below.
-/

namespace ImageSearch

/-! ## Character helpers (ASCII model of the Python string operations) -/

/-- A character matched by the token pattern of both files: after the
input has been lowercased, the classes `[a-z0-9]` (indexer, IGNORECASE)
and `[a-zA-Z0-9]` (backend) both reduce to lowercase ASCII letters and
digits. -/
def isTokenChar (c : Char) : Bool :=
  ('a' ≤ c && c ≤ 'z') || ('0' ≤ c && c ≤ '9')

/-- ASCII hexadecimal digit, as accepted by `bytes.fromhex` inside
`bson.ObjectId` and by percent-escapes in `urllib.parse.unquote`. -/
def isHexChar (c : Char) : Bool :=
  ('0' ≤ c && c ≤ '9') || ('a' ≤ c && c ≤ 'f') || ('A' ≤ c && c ≤ 'F')

/-- Numeric value of a hexadecimal digit. -/
def hexVal (c : Char) : Nat :=
  if '0' ≤ c && c ≤ '9' then c.toNat - '0'.toNat
  else if 'a' ≤ c && c ≤ 'f' then c.toNat - 'a'.toNat + 10
  else if 'A' ≤ c && c ≤ 'F' then c.toNat - 'A'.toNat + 10
  else 0

/-! ## Tokenizer (tokenize in both image_indexer.py and backend/main.py)

The stopword sets of the two files contain exactly the same words, so a
single list serves both. -/

/-- The fixed stopword set (STOPWORDS in both files). -/
def STOPWORDS : List String :=
  ["the", "is", "in", "at", "of", "a", "an", "and", "or", "to", "for",
   "on", "with", "by", "this", "that", "it", "as", "are", "was", "were",
   "be", "from", "which", "into", "about", "can", "will", "has", "have",
   "had", "you", "your", "we", "they", "their", "our", "not", "image", "jpg",
   "jpeg", "png", "webp", "gif"]

/-- Model of `TOKEN_RE.findall` on the (already lowercased) character list:
maximal runs of ASCII alphanumeric characters, left to right.  The
accumulator holds the current run reversed. -/
def alnumRunsAux : List Char → List Char → List (List Char)
  | [], acc => if acc.isEmpty then [] else [acc.reverse]
  | c :: cs, acc =>
    if isTokenChar c then alnumRunsAux cs (c :: acc)
    else if acc.isEmpty then alnumRunsAux cs []
    else acc.reverse :: alnumRunsAux cs []

/-- All maximal alphanumeric runs of a character list. -/
def alnumRuns (cs : List Char) : List (List Char) :=
  alnumRunsAux cs []

/-- Model of `tokenize(text)` of both files on a (non-null) string: lowercase,
extract maximal alphanumeric runs, keep tokens of length greater than 2
that are not stopwords.  Multiplicity and left-to-right order are
preserved. -/
def tokenize (text : String) : List String :=
  let tokens := (alnumRuns (text.data.map Char.toLower)).map (fun cs => String.mk cs)
  tokens.filter (fun t => 2 < t.length && !(STOPWORDS.contains t))

/-- Model of `tokenize` of image_indexer.py as a function of an optional (maybe
None) argument: the body starts with `text = (text or "").lower()`, so a
None input is replaced by the empty string. -/
def tokenize_ix (text : Option String) : List String :=
  tokenize (text.getD "")

/-- Error message standing for the AttributeError a None input raises in
the backend tokenizer. -/
def attrError : String := "AttributeError: NoneType object has no attribute lower"

/-- Model of `tokenize` of backend/main.py as a function of an optional (maybe
None) argument: the body starts with `text = text.lower()` with no
None guard, so a None input raises AttributeError. -/
def tokenize_be (text : Option String) : Except String (List String) :=
  match text with
  | none => .error attrError
  | some s => .ok (tokenize s)

/-! ## URL helpers (urllib.parse.urlparse / unquote, os.path.basename)

These model the Python standard-library functions the indexer calls,
for the http(s)-style URLs the crawler stores: fragment, scheme,
netloc, query splitting per `urllib.parse.urlsplit`, and byte-level
percent-decoding (`unquote`; multi-byte UTF-8 escapes are idealised as
single characters). -/

/-- Split a character list at the first occurrence of `sep`: the pair of
the part before and the part after (without the separator).  If `sep`
does not occur, the second component is none. -/
def splitFirst (sep : Char) : List Char → List Char × Option (List Char)
  | [] => ([], none)
  | c :: cs =>
    if c = sep then ([], some cs)
    else
      let r := splitFirst sep cs
      (c :: r.1, r.2)

/-- Valid characters of a URL scheme after its leading letter. -/
def isSchemeChar (c : Char) : Bool :=
  ('a' ≤ c && c ≤ 'z') || ('A' ≤ c && c ≤ 'Z') || ('0' ≤ c && c ≤ '9') ||
    c = '+' || c = '-' || c = '.'

/-- ASCII letter. -/
def isLetter (c : Char) : Bool :=
  ('a' ≤ c && c ≤ 'z') || ('A' ≤ c && c ≤ 'Z')

/-- The result of `urllib.parse.urlparse` restricted to the components
the indexer reads. -/
structure UrlParts where
  scheme : String
  netloc : String
  path : String
  query : String
  fragment : String
deriving Repr, DecidableEq

/-- Model of `urllib.parse.urlparse` (via `urlsplit`): remove the
fragment at the first hash mark, strip a syntactically valid scheme up
to a colon, read the network location after a double slash up to the
next slash or question mark, and split the query at the first question
mark. -/
def urlparse (u : String) : UrlParts :=
  let (u1, frag) := splitFirst '#' u.data
  let fragment := (frag.getD []).asString
  -- scheme: a leading letter followed by scheme characters, then ':'
  let (schemeChars, rest1) :=
    match splitFirst ':' u1 with
    | (before, some after) =>
      if !before.isEmpty && isLetter (before.headD ' ') &&
          before.all isSchemeChar then
        (before, after)
      else ([], u1)
    | (_, none) => ([], u1)
  let scheme := (schemeChars.map Char.toLower).asString
  -- netloc: after a leading "//", up to the next '/' or '?'
  let (netlocChars, rest2) :=
    match rest1 with
    | '/' :: '/' :: tl =>
      (tl.takeWhile (fun c => !(c = '/' || c = '?')),
       tl.dropWhile (fun c => !(c = '/' || c = '?')))
    | _ => ([], rest1)
  let (pathChars, queryTail) := splitFirst '?' rest2
  { scheme := scheme
    netloc := netlocChars.asString
    path := pathChars.asString
    query := (queryTail.getD []).asString
    fragment := fragment }

/-- Model of `urlparse(u).hostname`: the netloc with any user
information (up to the last at sign) and any port (from the first colon
after that) removed, lowercased. -/
def hostname (u : String) : String :=
  let netloc := (urlparse u).netloc.data
  let afterUser :=
    match splitFirst '@' netloc.reverse with
    | (hostRev, some _) => hostRev.reverse
    | (_, none) => netloc
  ((afterUser.takeWhile (fun c => c ≠ ':')).map Char.toLower).asString

/-- Model of `urllib.parse.unquote` at byte level: each `%xx` escape
with two hexadecimal digits becomes the character with that code;
invalid escapes are kept verbatim, as in Python. -/
def unquoteChars : List Char → List Char
  | [] => []
  | '%' :: a :: b :: rest =>
    if isHexChar a && isHexChar b then
      Char.ofNat (16 * hexVal a + hexVal b) :: unquoteChars rest
    else '%' :: unquoteChars (a :: b :: rest)
  | c :: rest => c :: unquoteChars rest

/-- Model of `urllib.parse.unquote` on strings. -/
def unquote (s : String) : String :=
  (unquoteChars s.data).asString

/-- Model of `os.path.basename`: the part of a path after its last slash. -/
def basename (p : String) : String :=
  ((p.data.reverse.takeWhile (fun c => c ≠ '/')).reverse).asString

/-! ## tokens_from_url (image_indexer.py) -/

/-- Model of `re.split` with a pattern of the form `[chars]+`: the pieces of the
string between maximal runs of separator characters, including an empty
piece at the start (resp. end) when the string starts (resp. ends) with
a separator. -/
def splitSepRuns (isSep : Char → Bool) (l : List Char) : List String :=
  match h : l.dropWhile (fun c => !isSep c) with
  | [] => [(l.takeWhile (fun c => !isSep c)).asString]
  | _ :: tl =>
    (l.takeWhile (fun c => !isSep c)).asString ::
      splitSepRuns isSep (tl.dropWhile isSep)
termination_by l.length
decreasing_by
  have h1 : (tl.dropWhile isSep).length ≤ tl.length :=
    (List.dropWhile_sublist _).length_le
  have h2 : (l.dropWhile (fun c => !isSep c)).length ≤ l.length :=
    (List.dropWhile_sublist _).length_le
  rw [h] at h2
  simp only [List.length_cons] at h2
  omega

/-- Separator class `[\/\-\._]` of the path split in tokens_from_url. -/
def isPathSep (c : Char) : Bool :=
  c = '/' || c = '-' || c = '.' || c = '_'

/-- Separator class `[\.\-]` of the hostname split in tokens_from_url. -/
def isHostSep (c : Char) : Bool :=
  c = '.' || c = '-'

/-- Model of `tokens_from_url(u)` of image_indexer.py: for a falsy (empty) URL
return no tokens; otherwise percent-decode the parsed path, split it on
runs of slash, hyphen, dot and underscore keeping the nonempty parts,
split the hostname on runs of dot and hyphen, join all parts with
spaces and tokenize the result. -/
def tokens_from_url (u : String) : List String :=
  if u = "" then []
  else
    let path := unquote (urlparse u).path
    let parts := (splitSepRuns isPathSep path.data).filter (fun p => p ≠ "")
    let host_tokens := splitSepRuns isHostSep (hostname u).data
    let all_tokens := parts ++ host_tokens
    let joined := String.intercalate " " all_tokens
    tokenize joined

/-! ## Python dict model

Insertion-ordered association lists: updating an existing key keeps its
position, a new key is appended at the end — exactly the iteration
order of Python dicts (and of defaultdict and Counter). -/

/-- Assignment `m[k] = v`: replace in place, or append. -/
def dictSet {κ α : Type} [DecidableEq κ] : List (κ × α) → κ → α → List (κ × α)
  | [], k, v => [(k, v)]
  | (k', v') :: m, k, v =>
    if k' = k then (k', v) :: m else (k', v') :: dictSet m k v

/-- Lookup `m.get(k)`. -/
def dictGet? {κ α : Type} [DecidableEq κ] : List (κ × α) → κ → Option α
  | [], _ => none
  | (k', v') :: m, k => if k' = k then some v' else dictGet? m k

/-- Lookup `m.get(k, d)` and `defaultdict` read access. -/
def dictGetD {κ α : Type} [DecidableEq κ] (m : List (κ × α)) (k : κ) (d : α) : α :=
  (dictGet? m k).getD d

/-- Update `m[k] = f(m[k])` on a defaultdict with default `dflt`: modify in
place, or append `f dflt`. -/
def dictModify {κ α : Type} [DecidableEq κ] (dflt : α) (f : α → α) :
    List (κ × α) → κ → List (κ × α)
  | [], k => [(k, f dflt)]
  | (k', v') :: m, k =>
    if k' = k then (k', f v') :: m else (k', v') :: dictModify dflt f m k

/-! ## Data model -/

/-- A MongoDB document identifier as it can occur in a posting:
either a genuine BSON ObjectId (held as its 24-character lowercase
hexadecimal form) or a plain string.  In Python an ObjectId never
compares equal to a string, which matches the derived equality here. -/
inductive DocId where
  | oid (hex : String)
  | strId (s : String)
deriving Repr, DecidableEq

/-- A posting of the inverted index: document id and term frequency
(the docs array elements of an image_terms document). -/
structure Posting where
  doc_id : DocId
  tf : Nat
deriving Repr, DecidableEq

/-- An image_terms document: term, idf weight and posting list.
The builder always writes all three fields, so the `entry.get` calls of
the backend never fall back to their defaults. -/
structure TermEntry (S : Type) where
  term : String
  idf : S
  docs : List Posting
deriving Repr

/-- An image_documents document (Document Entry): metadata, token count
and display snippet of one indexed image. -/
structure DocEntry where
  _id : DocId
  file_url : String
  alt_text : String
  caption_text : String
  page_url : String
  domain_name : String
  format : String
  length : Nat
  snippet : String
deriving Repr, DecidableEq

/-- A source record of the image_files collection, restricted to the
projection the builder queries.  A field missing in the database is
modelled by the empty string, which is how the `or ""` fallbacks of the
builder treat it (the projection keeps only these field names, so the
alternative names in those fallback chains are never present). -/
structure SourceRecord where
  _id : DocId
  file_url : String
  alt_text : String
  caption_text : String
  page_url : String
  domain_name : String
  format : String
deriving Repr, DecidableEq

/-- One result object produced by search_images.  The Python code
renders the id with str(); the model keeps the DocId itself. -/
structure SearchResult (S : Type) where
  id : DocId
  file_url : String
  alt : String
  caption : String
  page_url : String
  domain : String
  format : String
  snippet : String
  score : S
deriving Repr

/-! ## Index builder (build_image_index in image_indexer.py) -/

/-- Python truthiness choice `a or b` on strings. -/
def pyOr (a b : String) : String := if a = "" then b else a

/-- Model of `re.sub` with pattern `[-_]+`: replace each maximal run of hyphens and
underscores by a single space. -/
def subDashUnderscore (s : String) : String :=
  String.intercalate " " (splitSepRuns (fun c => c = '-' || c = '_') s.data)

/-- The filename of a record: `basename(urlparse(file_url).path)`. -/
def recordFilename (file_url : String) : String :=
  basename (urlparse file_url).path

/-- The combined token list of one source record, exactly as the
builder's per-record loop computes it: tokenize the space-joined
non-empty fields (alt, caption, filename with dashes and underscores
replaced by spaces, page URL, domain, format), then append the URL
token sequences of the page URL and the file URL. -/
def recordTokens (r : SourceRecord) : List String :=
  let filename := recordFilename r.file_url
  let parts :=
    (if r.alt_text ≠ "" then [r.alt_text] else []) ++
    (if r.caption_text ≠ "" then [r.caption_text] else []) ++
    (if filename ≠ "" then [subDashUnderscore filename] else []) ++
    (if r.page_url ≠ "" then [r.page_url] else []) ++
    (if r.domain_name ≠ "" then [r.domain_name] else []) ++
    (if r.format ≠ "" then [r.format] else [])
  let combined := String.intercalate " " parts
  tokenize combined ++ tokens_from_url r.page_url ++ tokens_from_url r.file_url

/-- The snippet of one record: caption, else alt, else filename, else
the page URL truncated to 300 characters, else empty. -/
def recordSnippet (r : SourceRecord) : String :=
  let filename := recordFilename r.file_url
  pyOr r.caption_text (pyOr r.alt_text
    (if filename ≠ "" then filename
     else if r.page_url ≠ "" then r.page_url.take 300 else ""))

/-- The metadata the builder stores per indexed record (doc_metadata
entry). -/
structure DocMeta where
  file_url : String
  alt_text : String
  caption_text : String
  page_url : String
  domain_name : String
  format : String
  snippet : String
deriving Repr, DecidableEq

/-- doc_metadata value of a record. -/
def recordMeta (r : SourceRecord) : DocMeta :=
  { file_url := r.file_url
    alt_text := r.alt_text
    caption_text := r.caption_text
    page_url := r.page_url
    domain_name := r.domain_name
    format := r.format
    snippet := recordSnippet r }

/-- Model of `collections.Counter(tokens)` as an insertion-ordered dict from
token to multiplicity. -/
def counter (ts : List String) : List (String × Nat) :=
  ts.foldl (fun m t => dictModify 0 (· + 1) m t) []

/-- The builder's accumulated state: doc_lengths, doc_metadata and the
nested defaultdict inverted_index (term to dict from doc id to tf). -/
structure BuildState where
  doc_lengths : List (DocId × Nat)
  doc_metadata : List (DocId × DocMeta)
  inverted_index : List (String × List (DocId × Nat))
deriving Repr, DecidableEq

/-- Accumulation `inverted_index[term][doc_id] += tf` for every (term, tf) item of a
counter. -/
def addCounts (inv : List (String × List (DocId × Nat))) (d : DocId)
    (cnt : List (String × Nat)) : List (String × List (DocId × Nat)) :=
  cnt.foldl (fun inv' item =>
    dictModify [] (fun ps => dictModify 0 (· + item.2) ps d) inv' item.1) inv

/-- The body of the builder's per-record loop: a record with an empty
combined token list is skipped, any other record sets its length and
metadata and accumulates its term frequencies. -/
def processRecord (st : BuildState) (r : SourceRecord) : BuildState :=
  let tokens := recordTokens r
  if tokens.isEmpty then st
  else
    { doc_lengths := dictSet st.doc_lengths r._id tokens.length
      doc_metadata := dictSet st.doc_metadata r._id (recordMeta r)
      inverted_index := addCounts st.inverted_index r._id (counter tokens) }

/-- The whole per-record loop, from the empty state. -/
def processRecords (src : List SourceRecord) : BuildState :=
  src.foldl processRecord ⟨[], [], []⟩

/-- The id `d` occurs nowhere in the builder state: not as a document
length key, not as a metadata key, and in no posting dict of the
inverted index. -/
def idAbsent (st : BuildState) (d : DocId) : Prop :=
  d ∉ st.doc_lengths.map Prod.fst ∧ d ∉ st.doc_metadata.map Prod.fst ∧
    ∀ tp ∈ st.inverted_index, d ∉ tp.2.map Prod.fst

section Score

variable {S : Type} [LinearOrderedField S]

/-- The image_terms documents the builder emits: one per distinct term,
with `idf = log(num_docs / (1 + df))` where df is the posting count. -/
def mkTerms (slog : S → S) (num_docs : Nat)
    (inv : List (String × List (DocId × Nat))) : List (TermEntry S) :=
  inv.map (fun e =>
    { term := e.1
      idf := slog ((num_docs : S) / (1 + (e.2.length : S)))
      docs := e.2.map (fun p => { doc_id := p.1, tf := p.2 }) })

/-- The image_documents documents the builder emits: one per
doc_metadata entry, with the recorded length. -/
def mkDocs (lengths : List (DocId × Nat)) (meta : List (DocId × DocMeta)) :
    List DocEntry :=
  meta.map (fun e =>
    { _id := e.1
      file_url := e.2.file_url
      alt_text := e.2.alt_text
      caption_text := e.2.caption_text
      page_url := e.2.page_url
      domain_name := e.2.domain_name
      format := e.2.format
      length := dictGetD lengths e.1 0
      snippet := e.2.snippet })

/-- The pure core of build_image_index: from the fetched source records
either none (the builder returned early: empty collection, or no record
yielded tokens) or the pair of output collections it inserts after
dropping the old ones. -/
def build_core (slog : S → S) (src : List SourceRecord) :
    Option (List DocEntry × List (TermEntry S)) :=
  if src.isEmpty then none
  else
    let st := processRecords src
    let num_docs := st.doc_lengths.length
    if num_docs = 0 then none
    else some (mkDocs st.doc_lengths st.doc_metadata,
               mkTerms slog num_docs st.inverted_index)

/-- build_image_index as a transformer of the persisted state: on the
early-return paths the previously stored collections survive untouched,
otherwise they are dropped and replaced by the fresh build. -/
def build_image_index (slog : S → S) (src : List SourceRecord)
    (prevDocs : List DocEntry) (prevTerms : List (TermEntry S)) :
    List DocEntry × List (TermEntry S) :=
  match build_core slog src with
  | none => (prevDocs, prevTerms)
  | some r => r

end Score

/-! ## Query scorer (search_images in backend/main.py) -/

/-- A 24-character hexadecimal string, the only string form
`bson.ObjectId` accepts. -/
def isHex24 (s : String) : Bool :=
  s.length == 24 && s.data.all isHexChar

/-- The InvalidId error `ObjectId(s)` raises on any other string. -/
def invalidIdError (s : String) : String :=
  "bson.errors.InvalidId: " ++ s

/-- Coercion `ObjectId(d) if not isinstance(d, ObjectId) else d`: an ObjectId
passes through, a 24-hex string is parsed (hexadecimal case is
normalised, as ObjectId equality is on the underlying bytes), any other
string raises InvalidId. -/
def normalizeId : DocId → Except String DocId
  | .oid h => .ok (.oid h)
  | .strId s =>
    if isHex24 s then .ok (.oid (s.data.map Char.toLower).asString)
    else .error (invalidIdError s)

section Query

variable {S : Type} [LinearOrderedField S]

/-- The TF-IDF scoring loop of search_images: for every fetched index
entry and every posting, `scores[doc_id] += (1 + log(tf)) * idf` on a
defaultdict(float). -/
def computeScores (slog : S → S) (entries : List (TermEntry S)) :
    List (DocId × S) :=
  entries.foldl (fun scores entry =>
    entry.docs.foldl (fun scores' p =>
      dictModify 0 (· + (1 + slog (p.tf : S)) * entry.idf) scores' p.doc_id)
      scores) []

/-- Insert one scored document into an already descending list, keeping
earlier elements in front of later ones of equal score — the stable
descending order of `sorted(..., key=lambda x: x[1], reverse=True)`. -/
def insertDesc (p : DocId × S) : List (DocId × S) → List (DocId × S)
  | [] => [p]
  | q :: qs => if p.2 < q.2 then q :: insertDesc p qs else p :: q :: qs

/-- Stable sort by strictly decreasing score. -/
def sortDesc (l : List (DocId × S)) : List (DocId × S) :=
  l.foldr insertDesc []

/-- Python list slicing `l[:n]` for an arbitrary (possibly negative)
integer bound: a non-negative bound keeps at most `n` leading elements,
a negative bound drops the last `-n` elements. -/
def pySlice {α : Type} (n : Int) (l : List α) : List α :=
  if 0 ≤ n then l.take n.toNat else l.take (l.length - (-n).toNat)

/-- search_images(query, limit) of backend/main.py over an explicit
index (image_terms) and metadata table (image_documents), both in
collection order.  The Except layer carries the one exception the body
itself can raise: the ObjectId coercion of a scored document id. -/
def search_images (slog : S → S) (query : String) (limit : Int)
    (index : List (TermEntry S)) (docsTable : List DocEntry) :
    Except String (List (SearchResult S)) :=
  let terms := tokenize query
  if terms.isEmpty then .ok []
  else
    let index_entries := index.filter (fun e => terms.contains e.term)
    if index_entries.isEmpty then .ok []
    else
      let scores := computeScores slog index_entries
      if scores.isEmpty then .ok []
      else
        let sorted_docs := sortDesc scores
        let top_docs := pySlice limit sorted_docs
        let doc_ids := top_docs.map (fun p => p.1)
        match doc_ids.mapM normalizeId with
        | .error e => .error e
        | .ok normalized_ids =>
          let fetched :=
            docsTable.filter (fun d => normalized_ids.contains d._id)
          let docs_by_id := fetched.foldl (fun m d => dictSet m d._id d) []
          .ok (top_docs.filterMap (fun p =>
            (dictGet? docs_by_id p.1).map (fun meta =>
              { id := p.1
                file_url := meta.file_url
                alt := meta.alt_text
                caption := meta.caption_text
                page_url := meta.page_url
                domain := meta.domain_name
                format := meta.format
                snippet := meta.snippet
                score := p.2 })))

/-- The total contribution of one fetched index entry to the score of
document `d`: one `(1 + log tf) * idf` summand per posting of `d`
(specification-side regrouping of the scoring loop, proved equal to it
below). -/
def entryScore (slog : S → S) (e : TermEntry S) (d : DocId) : S :=
  ((e.docs.filter (fun p => p.doc_id == d)).map
    (fun p => (1 + slog (p.tf : S)) * e.idf)).sum

/-- The score search_images accumulates for document `d` under a query
whose token list is `terms` (0 when `d` is never touched): the value of
the scores dict after the TF-IDF loop over the fetched entries. -/
def docScore (slog : S → S) (index : List (TermEntry S))
    (terms : List String) (d : DocId) : S :=
  dictGetD (computeScores slog (index.filter (fun e => terms.contains e.term))) d 0

end Query

/-! ## Concrete fixtures

Score-free fixtures are definitions; index states and results carrying
real numbers appear inline in the theorem statements below, since a
constant of type `TermEntry Real` has no executable code. -/

/-- A well-formed ObjectId. -/
def cId1 : DocId := .oid "aaaaaaaaaaaaaaaaaaaaaaaa"

/-- A second well-formed ObjectId. -/
def cId2 : DocId := .oid "bbbbbbbbbbbbbbbbbbbbbbbb"

/-- A third well-formed ObjectId. -/
def cId0 : DocId := .oid "cccccccccccccccccccccccc"

/-- A source record whose only textual signal is the alt text
"hello". -/
def cRecHello : SourceRecord :=
  { _id := cId1, file_url := "", alt_text := "hello", caption_text := "",
    page_url := "", domain_name := "", format := "" }

/-- A source record with no textual signal at all. -/
def cRecEmpty : SourceRecord :=
  { _id := cId0, file_url := "", alt_text := "", caption_text := "",
    page_url := "", domain_name := "", format := "" }

/-- The Document Entry the builder produces for cRecHello. -/
def cDocHello : DocEntry :=
  { _id := cId1, file_url := "", alt_text := "hello", caption_text := "",
    page_url := "", domain_name := "", format := "", length := 1,
    snippet := "hello" }

/-- A metadata entry for cId2. -/
def cDocWorld : DocEntry :=
  { _id := cId2, file_url := "", alt_text := "world", caption_text := "",
    page_url := "", domain_name := "", format := "", length := 1,
    snippet := "world" }

/-! ## Lemmas about the dict model -/

theorem dictGet?_dictModify {κ α : Type} [DecidableEq κ] (dflt : α) (f : α → α)
    (m : List (κ × α)) (k d : κ) :
    dictGet? (dictModify dflt f m k) d =
      if d = k then some (f ((dictGet? m k).getD dflt)) else dictGet? m d := by
  induction m with
  | nil =>
    by_cases h : d = k
    · subst h; simp [dictModify, dictGet?]
    · have h' : ¬ k = d := fun h'' => h h''.symm
      simp [dictModify, dictGet?, h, h']
  | cons kv m ih =>
    obtain ⟨k', v'⟩ := kv
    simp only [dictModify]
    by_cases h1 : k' = k
    · subst h1
      by_cases h2 : d = k'
      · subst h2; simp [dictGet?]
      · have h2' : ¬ k' = d := fun h'' => h2 h''.symm
        simp [dictGet?, h2, h2']
    · rw [if_neg h1]
      by_cases h2 : k' = d
      · subst h2
        have h1' : ¬ k' = k := h1
        simp [dictGet?, h1']
      · simp [dictGet?, h2, ih, h1]

theorem dictGetD_dictModify_add {κ S : Type} [DecidableEq κ] [AddCommMonoid S]
    (m : List (κ × S)) (k d : κ) (v : S) :
    dictGetD (dictModify 0 (· + v) m k) d 0 =
      dictGetD m d 0 + if d = k then v else 0 := by
  unfold dictGetD
  rw [dictGet?_dictModify]
  by_cases h : d = k
  · subst h; simp
  · simp [h]

theorem dictModify_map_fst {κ α : Type} [DecidableEq κ] (dflt : α) (f : α → α)
    (m : List (κ × α)) (k : κ) :
    (dictModify dflt f m k).map Prod.fst =
      if k ∈ m.map Prod.fst then m.map Prod.fst else m.map Prod.fst ++ [k] := by
  induction m with
  | nil => simp [dictModify]
  | cons kv m ih =>
    obtain ⟨k', v'⟩ := kv
    simp only [dictModify]
    by_cases h1 : k' = k
    · subst h1; simp
    · have hkk : ¬ k = k' := fun h' => h1 h'.symm
      simp only [if_neg h1, List.map_cons, ih, List.mem_cons, hkk, false_or]
      by_cases h2 : k ∈ m.map Prod.fst
      · simp [h2]
      · simp [h2]

theorem dictSet_map_fst {κ α : Type} [DecidableEq κ]
    (m : List (κ × α)) (k : κ) (v : α) :
    (dictSet m k v).map Prod.fst =
      if k ∈ m.map Prod.fst then m.map Prod.fst else m.map Prod.fst ++ [k] := by
  induction m with
  | nil => simp [dictSet]
  | cons kv m ih =>
    obtain ⟨k', v'⟩ := kv
    simp only [dictSet]
    by_cases h1 : k' = k
    · subst h1; simp
    · have hkk : ¬ k = k' := fun h' => h1 h'.symm
      simp only [if_neg h1, List.map_cons, ih, List.mem_cons, hkk, false_or]
      by_cases h2 : k ∈ m.map Prod.fst
      · simp [h2]
      · simp [h2]

theorem not_mem_dictSet_map_fst {κ α : Type} [DecidableEq κ]
    {m : List (κ × α)} {k d : κ} (v : α)
    (hm : d ∉ m.map Prod.fst) (hk : d ≠ k) :
    d ∉ (dictSet m k v).map Prod.fst := by
  rw [dictSet_map_fst]
  by_cases h : k ∈ m.map Prod.fst
  · rw [if_pos h]; exact hm
  · rw [if_neg h]
    intro hd
    rcases List.mem_append.mp hd with h' | h'
    · exact hm h'
    · exact hk (List.mem_singleton.mp h')

theorem not_mem_dictModify_map_fst {κ α : Type} [DecidableEq κ]
    {m : List (κ × α)} {k d : κ} (dflt : α) (f : α → α)
    (hm : d ∉ m.map Prod.fst) (hk : d ≠ k) :
    d ∉ (dictModify dflt f m k).map Prod.fst := by
  rw [dictModify_map_fst]
  by_cases h : k ∈ m.map Prod.fst
  · rw [if_pos h]; exact hm
  · rw [if_neg h]
    intro hd
    rcases List.mem_append.mp hd with h' | h'
    · exact hm h'
    · exact hk (List.mem_singleton.mp h')

theorem mem_dictModify {κ α : Type} [DecidableEq κ] {dflt : α} {f : α → α}
    {m : List (κ × α)} {k : κ} {tp : κ × α} (h : tp ∈ dictModify dflt f m k) :
    tp ∈ m ∨ ∃ v, tp = (k, f v) ∧ ((k, v) ∈ m ∨ v = dflt) := by
  induction m with
  | nil =>
    simp only [dictModify, List.mem_singleton] at h
    exact Or.inr ⟨dflt, h, Or.inr rfl⟩
  | cons kv m ih =>
    obtain ⟨k', v'⟩ := kv
    simp only [dictModify] at h
    by_cases h1 : k' = k
    · subst h1
      rw [if_pos rfl] at h
      rcases List.mem_cons.mp h with h2 | h2
      · exact Or.inr ⟨v', h2, Or.inl (List.mem_cons_self _ _)⟩
      · exact Or.inl (List.mem_cons_of_mem _ h2)
    · rw [if_neg h1] at h
      rcases List.mem_cons.mp h with h2 | h2
      · exact Or.inl (h2 ▸ List.mem_cons_self _ _)
      · rcases ih h2 with h3 | ⟨v, hv, h4⟩
        · exact Or.inl (List.mem_cons_of_mem _ h3)
        · exact Or.inr ⟨v, hv, h4.imp (List.mem_cons_of_mem _) id⟩

/-! ## Lemmas about the scoring loop -/

section ScoreLemmas

variable {S : Type} [LinearOrderedField S]

theorem postings_foldl_score (slog : S → S) (idf : S) (d : DocId) :
    ∀ (ps : List Posting) (acc : List (DocId × S)),
      dictGetD (ps.foldl (fun sc p =>
          dictModify 0 (· + (1 + slog (p.tf : S)) * idf) sc p.doc_id) acc) d 0 =
        dictGetD acc d 0 +
          ((ps.filter (fun p => p.doc_id == d)).map
            (fun p => (1 + slog (p.tf : S)) * idf)).sum := by
  intro ps
  induction ps with
  | nil => intro acc; simp
  | cons p ps ih =>
    intro acc
    simp only [List.foldl_cons, ih, dictGetD_dictModify_add]
    by_cases h : p.doc_id = d
    · simp [h, add_assoc]
    · have h' : ¬ d = p.doc_id := fun h'' => h h''.symm
      simp [h, h']

theorem entries_foldl_score (slog : S → S) (d : DocId) :
    ∀ (entries : List (TermEntry S)) (acc : List (DocId × S)),
      dictGetD (entries.foldl (fun scores entry =>
          entry.docs.foldl (fun sc p =>
            dictModify 0 (· + (1 + slog (p.tf : S)) * entry.idf) sc p.doc_id)
            scores) acc) d 0 =
        dictGetD acc d 0 + (entries.map (fun e => entryScore slog e d)).sum := by
  intro entries
  induction entries with
  | nil => intro acc; simp
  | cons e entries ih =>
    intro acc
    simp only [List.foldl_cons, ih, postings_foldl_score, List.map_cons,
      List.sum_cons, entryScore]
    ring

/-- The value the TF-IDF loop accumulates for a document is the sum of
the per-entry contributions. -/
theorem dictGetD_computeScores (slog : S → S) (entries : List (TermEntry S))
    (d : DocId) :
    dictGetD (computeScores slog entries) d 0 =
      (entries.map (fun e => entryScore slog e d)).sum := by
  unfold computeScores
  rw [entries_foldl_score]
  simp [dictGetD, dictGet?]

/-- Entries with empty posting lists accumulate nothing. -/
theorem scoresFold_docs_nil (slog : S → S) :
    ∀ (entries : List (TermEntry S)) (acc : List (DocId × S)),
      (∀ e ∈ entries, e.docs = []) →
      entries.foldl (fun scores entry =>
        entry.docs.foldl (fun sc p =>
          dictModify 0 (· + (1 + slog (p.tf : S)) * entry.idf) sc p.doc_id)
          scores) acc = acc := by
  intro entries
  induction entries with
  | nil => intro acc _; rfl
  | cons e entries ih =>
    intro acc h
    simp only [List.foldl_cons]
    rw [h e (List.mem_cons_self _ _), List.foldl_nil]
    exact ih acc (fun e' he' => h e' (List.mem_cons_of_mem _ he'))

/-- Splitting the fetched-entry sum of a two-term query into the sums
of the two single-term queries. -/
theorem filter_two_terms_sum (f : TermEntry S → S) (t1 t2 : String)
    (hne : t1 ≠ t2) :
    ∀ idx : List (TermEntry S),
      ((idx.filter (fun e => [t1, t2].contains e.term)).map f).sum =
        ((idx.filter (fun e => [t1].contains e.term)).map f).sum +
          ((idx.filter (fun e => [t2].contains e.term)).map f).sum := by
  intro idx
  induction idx with
  | nil => simp
  | cons e idx ih =>
    by_cases h1 : e.term = t1
    · have h2 : e.term ≠ t2 := h1 ▸ hne
      have hb12 : [t1, t2].contains e.term = true := by
        simp [List.contains_cons, h1]
      have hb1 : [t1].contains e.term = true := by
        simp [List.contains_cons, h1]
      have hb2 : [t2].contains e.term = false := by
        simp [List.contains_cons, h2]
      rw [List.filter_cons, List.filter_cons, List.filter_cons,
        hb12, hb1, hb2]
      simp only [eq_self_iff_true, if_true, Bool.false_eq_true, if_false,
        List.map_cons, List.sum_cons, ih]
      ring
    · by_cases h2 : e.term = t2
      · have hb12 : [t1, t2].contains e.term = true := by
          simp [List.contains_cons, h2]
        have hb1 : [t1].contains e.term = false := by
          simp [List.contains_cons, h1]
        have hb2 : [t2].contains e.term = true := by
          simp [List.contains_cons, h2]
        rw [List.filter_cons, List.filter_cons, List.filter_cons,
          hb12, hb1, hb2]
        simp only [eq_self_iff_true, if_true, Bool.false_eq_true, if_false,
          List.map_cons, List.sum_cons, ih]
        ring
      · have hb12 : [t1, t2].contains e.term = false := by
          simp [List.contains_cons, h1, h2]
        have hb1 : [t1].contains e.term = false := by
          simp [List.contains_cons, h1]
        have hb2 : [t2].contains e.term = false := by
          simp [List.contains_cons, h2]
        rw [List.filter_cons, List.filter_cons, List.filter_cons,
          hb12, hb1, hb2]
        simp only [Bool.false_eq_true, if_false, ih]

end ScoreLemmas

/-! ## Claim C7: score additivity -/

/-- C7: for a two-term query over distinct terms, the score the TF-IDF
loop accumulates for a document containing both terms is the sum of the
scores accumulated by the two single-term queries. -/
theorem docScore_two_terms_additive (idx : List (TermEntry ℝ))
    (t1 t2 : String) (d : DocId) (hne : t1 ≠ t2)
    (hd1 : ∃ e ∈ idx, e.term = t1 ∧ ∃ p ∈ e.docs, p.doc_id = d)
    (hd2 : ∃ e ∈ idx, e.term = t2 ∧ ∃ p ∈ e.docs, p.doc_id = d) :
    docScore Real.log idx [t1, t2] d =
      docScore Real.log idx [t1] d + docScore Real.log idx [t2] d := by
  unfold docScore
  rw [dictGetD_computeScores, dictGetD_computeScores, dictGetD_computeScores]
  exact filter_two_terms_sum _ t1 t2 hne idx

/-! ## Claim C6: empty queries and empty posting lists -/

/-- C6: a query with no recognized terms returns the empty result list
for every index and metadata state (so in particular no posting data is
consulted), and a query whose matching entries all have empty posting
lists also returns the empty result list; neither case is an error. -/
theorem search_empty_terms_or_postings (q : String) (k : Int)
    (idx : List (TermEntry ℝ)) (dt : List DocEntry)
    (h : tokenize q = [] ∨ ∀ e ∈ idx, e.term ∈ tokenize q → e.docs = []) :
    search_images Real.log q k idx dt = .ok [] := by
  rcases h with h | h
  · have ht : (tokenize q).isEmpty = true := by rw [h]; rfl
    simp only [search_images]
    rw [if_pos ht]
  · by_cases ht : (tokenize q).isEmpty
    · simp only [search_images]
      rw [if_pos ht]
    · have hscores :
          computeScores Real.log
            (idx.filter (fun e => (tokenize q).contains e.term)) = [] := by
        unfold computeScores
        apply scoresFold_docs_nil
        intro e he
        rw [List.mem_filter] at he
        exact h e he.1 (List.elem_iff.mp he.2)
      simp only [search_images]
      rw [if_neg ht]
      by_cases hie :
          (idx.filter (fun e => (tokenize q).contains e.term)).isEmpty
      · rw [if_pos hie]
      · rw [if_neg hie, hscores]
        rfl

/-! ## Lemmas about the sort, the slice and the result assembly -/

section SortLemmas

variable {S : Type} [LinearOrderedField S]

theorem mem_insertDesc (p x : DocId × S) :
    ∀ l : List (DocId × S), x ∈ insertDesc p l ↔ x = p ∨ x ∈ l := by
  intro l
  induction l with
  | nil => simp [insertDesc]
  | cons q qs ih =>
    simp only [insertDesc]
    by_cases h : p.2 < q.2
    · rw [if_pos h]
      simp only [List.mem_cons, ih]
      tauto
    · rw [if_neg h]
      simp only [List.mem_cons]

theorem insertDesc_pairwise (p : DocId × S) (l : List (DocId × S))
    (hl : l.Pairwise (fun a b => b.2 ≤ a.2)) :
    (insertDesc p l).Pairwise (fun a b => b.2 ≤ a.2) := by
  induction l with
  | nil => simp [insertDesc]
  | cons q qs ih =>
    rw [List.pairwise_cons] at hl
    obtain ⟨hq, hqs⟩ := hl
    simp only [insertDesc]
    by_cases h : p.2 < q.2
    · rw [if_pos h]
      rw [List.pairwise_cons]
      refine ⟨?_, ih hqs⟩
      intro x hx
      rcases (mem_insertDesc p x qs).mp hx with rfl | hx'
      · exact le_of_lt h
      · exact hq x hx'
    · rw [if_neg h]
      push_neg at h
      rw [List.pairwise_cons]
      refine ⟨?_, List.pairwise_cons.mpr ⟨hq, hqs⟩⟩
      intro x hx
      rcases List.mem_cons.mp hx with rfl | hx'
      · exact h
      · exact le_trans (hq x hx') h

theorem sortDesc_pairwise (l : List (DocId × S)) :
    (sortDesc l).Pairwise (fun a b => b.2 ≤ a.2) := by
  induction l with
  | nil => exact List.Pairwise.nil
  | cons p l ih => exact insertDesc_pairwise p _ ih

theorem mem_sortDesc (x : DocId × S) (l : List (DocId × S)) :
    x ∈ sortDesc l ↔ x ∈ l := by
  induction l with
  | nil => simp [sortDesc]
  | cons p l ih =>
    show x ∈ insertDesc p (sortDesc l) ↔ _
    rw [mem_insertDesc, ih, List.mem_cons]

end SortLemmas

theorem pySlice_sublist {α : Type} (n : Int) (l : List α) :
    List.Sublist (pySlice n l) l := by
  unfold pySlice
  split
  · exact List.take_sublist _ _
  · exact List.take_sublist _ _

theorem pySlice_length_le {α : Type} (n : Int) (l : List α) (h : 0 ≤ n) :
    (pySlice n l).length ≤ n.toNat := by
  unfold pySlice
  rw [if_pos h]
  exact List.length_take_le _ _

theorem length_filterMap_pySlice {α β : Type} (g : α → Option β) (k : Int)
    (l : List α) (hk : 0 ≤ k) :
    (((pySlice k l).filterMap g).length : ℤ) ≤ k := by
  have h1 := List.length_filterMap_le g (pySlice k l)
  have h2 := pySlice_length_le k l hk
  have h3 := le_trans h1 h2
  calc ((List.filterMap g (pySlice k l)).length : ℤ) ≤ (k.toNat : ℤ) := by
        exact_mod_cast h3
    _ = k := Int.toNat_of_nonneg hk


/-! ## Claim C3 (amended): sortedness and the limit bound -/

/-- C3 amended: for every non-negative limit, search_images returns a
list sorted by non-increasing score of length at most the limit.  (For
a negative limit, Python slicing drops the last `-limit` candidates
instead of bounding the count, so the count bound fails there; see the
counterexample.) -/
theorem search_sorted_and_bounded (q : String) (k : Int)
    (idx : List (TermEntry ℝ)) (dt : List DocEntry)
    (res : List (SearchResult ℝ)) (hk : 0 ≤ k)
    (h : search_images Real.log q k idx dt = .ok res) :
    res.Pairwise (fun a b => b.score ≤ a.score) ∧ (res.length : ℤ) ≤ k := by
  simp only [search_images] at h
  split at h
  · simp only [Except.ok.injEq] at h
    subst h
    exact ⟨List.Pairwise.nil, by simpa using hk⟩
  · split at h
    · simp only [Except.ok.injEq] at h
      subst h
      exact ⟨List.Pairwise.nil, by simpa using hk⟩
    · split at h
      · simp only [Except.ok.injEq] at h
        subst h
        exact ⟨List.Pairwise.nil, by simpa using hk⟩
      · split at h
        · simp at h
        · simp only [Except.ok.injEq] at h
          subst h
          constructor
          · apply List.pairwise_filterMap.mpr
            have hs := (sortDesc_pairwise
              (computeScores Real.log
                (idx.filter (fun e => (tokenize q).contains e.term)))).sublist
              (pySlice_sublist k _)
            refine hs.imp ?_
            intro a b hab x hx y hy
            rw [Option.mem_def] at hx hy
            rcases Option.map_eq_some'.mp hx with ⟨v, _, hfx⟩
            rcases Option.map_eq_some'.mp hy with ⟨w, _, hfy⟩
            rw [← hfx, ← hfy]
            exact hab
          · exact length_filterMap_pySlice _ k _ hk

/-! ## Claim C2 (amended): the score carried by a result -/

/-- C2 amended: every result search_images returns carries exactly the
score the TF-IDF loop accumulated for its document id — the sum of
`(1 + log tf) * idf` over the postings of the fetched entries.  That
value is not in general non-negative; see the counterexample. -/
theorem search_result_scores (q : String) (k : Int)
    (idx : List (TermEntry ℝ)) (dt : List DocEntry)
    (res : List (SearchResult ℝ))
    (h : search_images Real.log q k idx dt = .ok res) :
    ∀ r ∈ res, (r.id, r.score) ∈
      computeScores Real.log
        (idx.filter (fun e => (tokenize q).contains e.term)) := by
  simp only [search_images] at h
  split at h
  · simp only [Except.ok.injEq] at h
    subst h
    intro r hr
    cases hr
  · split at h
    · simp only [Except.ok.injEq] at h
      subst h
      intro r hr
      cases hr
    · split at h
      · simp only [Except.ok.injEq] at h
        subst h
        intro r hr
        cases hr
      · split at h
        · simp at h
        · simp only [Except.ok.injEq] at h
          subst h
          intro r hr
          rcases List.mem_filterMap.mp hr with ⟨p, hp, hgp⟩
          rcases Option.map_eq_some'.mp hgp with ⟨v, _, hfr⟩
          have hid : r.id = p.1 := by rw [← hfr]
          have hsc : r.score = p.2 := by rw [← hfr]
          rw [hid, hsc]
          have hmem := (pySlice_sublist k _).subset hp
          exact (mem_sortDesc p _).mp hmem

/-! ## Claims about the tokenizer (C4, C5) -/

/-- C5: every token produced by tokenize has length greater than 2 and
is not a stopword; since the input is lowercased before matching, a
stopword of any input case is excluded. -/
theorem tokenize_length_stopwords (s t : String) (h : t ∈ tokenize s) :
    2 < t.length ∧ t ∉ STOPWORDS := by
  unfold tokenize at h
  simp only [List.mem_filter, Bool.and_eq_true, decide_eq_true_eq,
    Bool.not_eq_true'] at h
  refine ⟨h.2.1, ?_⟩
  intro hmem
  have hc : STOPWORDS.contains t = true := List.elem_iff.mpr hmem
  rw [h.2.2] at hc
  cases hc

/-- C5 witness at a concrete input. -/
theorem tokenize_length_stopwords_witness :
    ("ccc" ∈ tokenize "a bb the CCC ccc") ∧
      (2 < "ccc".length ∧ "ccc" ∉ STOPWORDS) :=
  ⟨by decide, tokenize_length_stopwords "a bb the CCC ccc" "ccc" (by decide)⟩

/-- C4 counterexample: the backend tokenizer (`text.lower()` with no
None guard) raises AttributeError on a null input instead of returning
an empty sequence, so the claim that tokenize has no failure modes on
null input is false for backend/main.py. -/
theorem tokenize_be_none_raises :
    tokenize_be none = Except.error attrError ∧
      tokenize_be none ≠ Except.ok [] := by
  exact ⟨rfl, by simp [tokenize_be]⟩

/-- C4 amended: tokenize is deterministic and side-effect free, and
empty input yields the empty sequence in both files; the indexer's
tokenize also maps a null input to the empty sequence, but the
backend's tokenize raises AttributeError on null. -/
theorem tokenize_null_empty_behaviour :
    tokenize_ix none = [] ∧ tokenize_ix (some "") = [] ∧
      tokenize_be (some "") = Except.ok [] ∧
      tokenize_be none = Except.error attrError :=
  ⟨rfl, rfl, rfl, rfl⟩

/-! ## Lemmas about the index builder -/

theorem processRecord_keys_eq (st : BuildState) (r : SourceRecord)
    (h : st.doc_lengths.map Prod.fst = st.doc_metadata.map Prod.fst) :
    (processRecord st r).doc_lengths.map Prod.fst =
      (processRecord st r).doc_metadata.map Prod.fst := by
  by_cases hr : (recordTokens r).isEmpty
  · simp only [processRecord, hr, if_true]
    exact h
  · rw [Bool.not_eq_true] at hr
    simp only [processRecord, hr, Bool.false_eq_true, if_false]
    rw [dictSet_map_fst, dictSet_map_fst, h]

theorem foldl_processRecord_keys_eq :
    ∀ (src : List SourceRecord) (st : BuildState),
      st.doc_lengths.map Prod.fst = st.doc_metadata.map Prod.fst →
      (src.foldl processRecord st).doc_lengths.map Prod.fst =
        (src.foldl processRecord st).doc_metadata.map Prod.fst := by
  intro src
  induction src with
  | nil => intro st h; exact h
  | cons r src ih =>
    intro st h
    exact ih _ (processRecord_keys_eq st r h)

theorem mkDocs_length (lengths : List (DocId × Nat))
    (meta : List (DocId × DocMeta)) :
    (mkDocs lengths meta).length = meta.length := by
  unfold mkDocs
  rw [List.length_map]

theorem processRecords_meta_length (src : List SourceRecord) :
    (processRecords src).doc_metadata.length =
      (processRecords src).doc_lengths.length := by
  have h := foldl_processRecord_keys_eq src ⟨[], [], []⟩ rfl
  have h2 := congrArg List.length h
  rw [List.length_map, List.length_map] at h2
  exact h2.symm

theorem mkTerms_idf {S : Type} [LinearOrderedField S] (slog : S → S)
    (n : Nat) (inv : List (String × List (DocId × Nat))) :
    ∀ e ∈ mkTerms slog n inv,
      e.idf = slog ((n : S) / (1 + (e.docs.length : S))) := by
  intro e he
  unfold mkTerms at he
  rw [List.mem_map] at he
  obtain ⟨p, _, rfl⟩ := he
  simp [List.length_map]

/-! ## Claim C1 (amended): the stored IDF weight -/

/-- C1 amended: every Term Entry the builder outputs stores
`idf = ln(N / (1 + df))` with N the number of Document Entries and df
its posting count; for a term occurring in every document (df = N) this
value is a small negative number, not a positive one. -/
theorem build_idf_formula (src : List SourceRecord) (docs : List DocEntry)
    (terms : List (TermEntry ℝ))
    (hb : build_core Real.log src = some (docs, terms)) :
    ∀ e ∈ terms,
      e.idf = Real.log ((docs.length : ℝ) / (1 + (e.docs.length : ℝ))) ∧
        (e.docs.length = docs.length → e.idf < 0) := by
  simp only [build_core] at hb
  split at hb
  · simp at hb
  · split at hb
    · simp at hb
    · rename_i hnum
      rw [Option.some.injEq, Prod.mk.injEq] at hb
      obtain ⟨hdocs, hterms⟩ := hb
      subst hdocs
      subst hterms
      have hN : (mkDocs (processRecords src).doc_lengths
          (processRecords src).doc_metadata).length =
          (processRecords src).doc_lengths.length := by
        rw [mkDocs_length, processRecords_meta_length]
      intro e he
      have hidf := mkTerms_idf Real.log _ _ e he
      refine ⟨by rw [hidf, hN], ?_⟩
      intro hdf
      rw [hidf]
      have hpos : 0 < (processRecords src).doc_lengths.length :=
        Nat.pos_of_ne_zero hnum
      have hdf' : (e.docs.length : ℝ) =
          ((processRecords src).doc_lengths.length : ℝ) := by
        rw [hdf, hN]
      rw [hdf']
      have hcast : (0 : ℝ) < ((processRecords src).doc_lengths.length : ℝ) :=
        Nat.cast_pos.mpr hpos
      apply Real.log_neg
      · apply div_pos hcast
        linarith
      · rw [div_lt_one (by linarith)]
        linarith

/-! ## Lemmas for the exclusion invariant -/

theorem addCounts_absent (d rid : DocId) (hne : d ≠ rid) :
    ∀ (cnt : List (String × Nat)) (inv : List (String × List (DocId × Nat))),
      (∀ tp ∈ inv, d ∉ tp.2.map Prod.fst) →
      ∀ tp ∈ addCounts inv rid cnt, d ∉ tp.2.map Prod.fst := by
  intro cnt
  induction cnt with
  | nil => intro inv h tp htp; exact h tp htp
  | cons item cnt ih =>
    intro inv h tp htp
    refine ih _ ?_ tp htp
    intro tp' htp'
    rcases mem_dictModify htp' with h1 | ⟨v, htpeq, hv⟩
    · exact h tp' h1
    · subst htpeq
      apply not_mem_dictModify_map_fst
      · rcases hv with hv | rfl
        · exact h (item.1, v) hv
        · simp
      · exact hne

theorem foldl_processRecord_absent :
    ∀ (src : List SourceRecord) (st : BuildState) (d : DocId),
      idAbsent st d → (∀ r ∈ src, recordTokens r = [] ∨ r._id ≠ d) →
      idAbsent (src.foldl processRecord st) d := by
  intro src
  induction src with
  | nil => intro st d h _; exact h
  | cons r src ih =>
    intro st d h hsrc
    refine ih _ d ?_ (fun r' hr' => hsrc r' (List.mem_cons_of_mem _ hr'))
    obtain ⟨h1, h2, h3⟩ := h
    rcases hsrc r (List.mem_cons_self _ _) with htok | hid
    · have hr : (recordTokens r).isEmpty = true := by rw [htok]; rfl
      simp only [processRecord, hr, if_true]
      exact ⟨h1, h2, h3⟩
    · by_cases hr : (recordTokens r).isEmpty
      · simp only [processRecord, hr, if_true]
        exact ⟨h1, h2, h3⟩
      · rw [Bool.not_eq_true] at hr
        simp only [processRecord, hr, Bool.false_eq_true, if_false]
        refine ⟨not_mem_dictSet_map_fst _ h1 (fun he => hid he.symm),
          not_mem_dictSet_map_fst _ h2 (fun he => hid he.symm), ?_⟩
        exact addCounts_absent d r._id (fun he => hid he.symm) _ _ h3

theorem foldl_processRecord_meta_prov (P : DocId → Prop) :
    ∀ (src : List SourceRecord) (st : BuildState),
      (∀ k ∈ st.doc_metadata.map Prod.fst, P k) →
      (∀ r ∈ src, recordTokens r ≠ [] → P r._id) →
      ∀ k ∈ (src.foldl processRecord st).doc_metadata.map Prod.fst, P k := by
  intro src
  induction src with
  | nil => intro st h _; exact h
  | cons r src ih =>
    intro st h hsrc
    refine ih _ ?_ (fun r' hr' => hsrc r' (List.mem_cons_of_mem _ hr'))
    by_cases hr : (recordTokens r).isEmpty
    · simp only [processRecord, hr, if_true]
      exact h
    · rw [Bool.not_eq_true] at hr
      simp only [processRecord, hr, Bool.false_eq_true, if_false]
      intro k hk
      rw [dictSet_map_fst] at hk
      by_cases hmem : r._id ∈ (st.doc_metadata.map Prod.fst)
      · rw [if_pos hmem] at hk
        exact h k hk
      · rw [if_neg hmem] at hk
        rcases List.mem_append.mp hk with hk' | hk'
        · exact h k hk'
        · rw [List.mem_singleton] at hk'
          subst hk'
          refine hsrc r (List.mem_cons_self _ _) ?_
          intro hnil
          rw [hnil] at hr
          cases hr

/-! ## Claim C8: records with no tokens are excluded -/

/-- C8: after a successful build over records with pairwise distinct
ids, a record whose combined tokenization is empty has no Document
Entry and its id occurs in no posting list; conversely, every Document
Entry belongs to a record that yielded at least one token. -/
theorem build_excludes_tokenless (src : List SourceRecord)
    (docs : List DocEntry) (terms : List (TermEntry ℝ))
    (hb : build_core Real.log src = some (docs, terms))
    (hnd : (src.map (fun r => r._id)).Nodup) :
    (∀ r ∈ src, recordTokens r = [] →
      (∀ d ∈ docs, d._id ≠ r._id) ∧
        ∀ e ∈ terms, ∀ p ∈ e.docs, p.doc_id ≠ r._id) ∧
    ∀ d ∈ docs, ∃ rec ∈ src, rec._id = d._id ∧ recordTokens rec ≠ [] := by
  simp only [build_core] at hb
  split at hb
  · simp at hb
  · split at hb
    · simp at hb
    · rw [Option.some.injEq, Prod.mk.injEq] at hb
      obtain ⟨hdocs, hterms⟩ := hb
      subst hdocs
      subst hterms
      constructor
      · intro r hr htok
        have habs : idAbsent (processRecords src) r._id := by
          apply foldl_processRecord_absent src ⟨[], [], []⟩ r._id
          · exact ⟨by simp, by simp, by simp⟩
          · intro r' hr'
            by_cases hid : r'._id = r._id
            · left
              have : r' = r := List.inj_on_of_nodup_map hnd hr' hr hid
              rw [this, htok]
            · right; exact hid
        obtain ⟨_, hmeta, hinv⟩ := habs
        constructor
        · intro d hd
          unfold mkDocs at hd
          rw [List.mem_map] at hd
          obtain ⟨e, he, rfl⟩ := hd
          intro heq
          apply hmeta
          rw [List.mem_map]
          exact ⟨e, he, heq⟩
        · intro e he p hp
          unfold mkTerms at he
          rw [List.mem_map] at he
          obtain ⟨tp, htp, rfl⟩ := he
          simp only [List.mem_map] at hp
          obtain ⟨q, hq, rfl⟩ := hp
          intro heq
          apply hinv tp htp
          rw [List.mem_map]
          exact ⟨q, hq, heq⟩
      · intro d hd
        unfold mkDocs at hd
        rw [List.mem_map] at hd
        obtain ⟨e, he, rfl⟩ := hd
        show ∃ rec ∈ src, rec._id = e.1 ∧ recordTokens rec ≠ []
        apply foldl_processRecord_meta_prov
          (fun k => ∃ rec ∈ src, rec._id = k ∧ recordTokens rec ≠ [])
          src ⟨[], [], []⟩ (by simp)
          (fun r hr htok => ⟨r, hr, rfl, htok⟩) e.1
        rw [List.mem_map]
        exact ⟨e, he, rfl⟩

/-! ## Claim C9: an empty build aborts and preserves the old index -/

theorem foldl_processRecord_all_empty :
    ∀ (src : List SourceRecord) (st : BuildState),
      (∀ r ∈ src, recordTokens r = []) → src.foldl processRecord st = st := by
  intro src
  induction src with
  | nil => intro st _; rfl
  | cons r src ih =>
    intro st h
    have hr : (recordTokens r).isEmpty = true := by
      rw [h r (List.mem_cons_self _ _)]; rfl
    show (src.foldl processRecord (processRecord st r)) = st
    rw [show processRecord st r = st by simp only [processRecord, hr, if_true]]
    exact ih st (fun r' hr' => h r' (List.mem_cons_of_mem _ hr'))

/-- C9: over an empty corpus, or one in which no record yields any
token, the builder returns before the drop-and-insert phase, so the
previously persisted collections survive unchanged. -/
theorem build_abort_preserves_prev (src : List SourceRecord)
    (prevDocs : List DocEntry) (prevTerms : List (TermEntry ℝ))
    (h : src = [] ∨ ∀ r ∈ src, recordTokens r = []) :
    build_image_index Real.log src prevDocs prevTerms =
      (prevDocs, prevTerms) := by
  unfold build_image_index
  rcases h with h | h
  · subst h
    rfl
  · by_cases hsrc : src.isEmpty
    · have hcore : build_core (S := ℝ) Real.log src = none := by
        simp [build_core, hsrc]
      rw [hcore]
    · rw [Bool.not_eq_true] at hsrc
      have hfold : processRecords src = ⟨[], [], []⟩ :=
        foldl_processRecord_all_empty src ⟨[], [], []⟩ h
      have hcore : build_core (S := ℝ) Real.log src = none := by
        simp [build_core, hsrc, hfold]
      rw [hcore]

/-! ## Claim C1: counterexample and witness -/

/-- C1 counterexample: a one-record corpus ("hello" as alt text) yields
N = 1 Document Entry and the term "hello" with df = 1 = N; the stored
IDF weight is ln(1 / (1 + 1)) = ln(1/2), which is negative — not the
small positive value the claim asserts for df = N. -/
theorem idf_df_eq_N_negative :
    build_core Real.log [cRecHello] = some ([cDocHello],
      [{ term := "hello",
         idf := Real.log (((1 : Nat) : ℝ) / (1 + ((1 : Nat) : ℝ))),
         docs := [{ doc_id := cId1, tf := 1 }] }]) ∧
      Real.log (((1 : Nat) : ℝ) / (1 + ((1 : Nat) : ℝ))) < 0 := by
  refine ⟨rfl, ?_⟩
  have h : (((1 : Nat) : ℝ) / (1 + ((1 : Nat) : ℝ))) = 1 / 2 := by norm_num
  rw [h]
  exact Real.log_neg (by norm_num) (by norm_num)

/-- C1 witness: the amended IDF theorem applied to the one-record
corpus. -/
theorem build_idf_formula_witness :
    build_core Real.log [cRecHello] = some ([cDocHello],
      [{ term := "hello",
         idf := Real.log (((1 : Nat) : ℝ) / (1 + ((1 : Nat) : ℝ))),
         docs := [{ doc_id := cId1, tf := 1 }] }]) ∧
    ∀ e ∈ [({ term := "hello",
              idf := Real.log (((1 : Nat) : ℝ) / (1 + ((1 : Nat) : ℝ))),
              docs := [{ doc_id := cId1, tf := 1 }] } : TermEntry ℝ)],
      e.idf = Real.log ((([cDocHello].length : ℝ)) / (1 + (e.docs.length : ℝ))) ∧
        (e.docs.length = [cDocHello].length → e.idf < 0) :=
  ⟨rfl, build_idf_formula [cRecHello] [cDocHello] _ rfl⟩

/-! ## Claim C2: counterexample and witness -/

/-- C2 counterexample: with the index state a builder produces for a
one-document corpus (idf = ln(1/2), a single posting with tf = 1), the
single result of searching that term carries the negative score
(1 + ln 1) * ln(1/2) < 0, refuting the claim that returned scores are
non-negative. -/
theorem search_negative_score_result :
    search_images Real.log "hello" 25
      [{ term := "hello", idf := Real.log ((1 : ℝ) / 2),
         docs := [{ doc_id := cId1, tf := 1 }] }] [cDocHello] =
      .ok [{ id := cId1, file_url := "", alt := "hello", caption := "",
             page_url := "", domain := "", format := "", snippet := "hello",
             score := 0 + (1 + Real.log ((1 : Nat) : ℝ)) * Real.log ((1 : ℝ) / 2) }] ∧
      0 + (1 + Real.log ((1 : Nat) : ℝ)) * Real.log ((1 : ℝ) / 2) < 0 := by
  refine ⟨rfl, ?_⟩
  have h1 : ((1 : Nat) : ℝ) = 1 := Nat.cast_one
  rw [h1, Real.log_one]
  have h2 : Real.log ((1 : ℝ) / 2) < 0 := Real.log_neg (by norm_num) (by norm_num)
  nlinarith

/-- C2 witness: the amended score theorem applied to the same concrete
query and index state. -/
theorem search_result_scores_witness :
    search_images Real.log "hello" 25
      [{ term := "hello", idf := Real.log ((1 : ℝ) / 2),
         docs := [{ doc_id := cId1, tf := 1 }] }] [cDocHello] =
      .ok [{ id := cId1, file_url := "", alt := "hello", caption := "",
             page_url := "", domain := "", format := "", snippet := "hello",
             score := 0 + (1 + Real.log ((1 : Nat) : ℝ)) * Real.log ((1 : ℝ) / 2) }] ∧
    ∀ r ∈ [({ id := cId1, file_url := "", alt := "hello", caption := "",
              page_url := "", domain := "", format := "", snippet := "hello",
              score := 0 + (1 + Real.log ((1 : Nat) : ℝ)) *
                Real.log ((1 : ℝ) / 2) } : SearchResult ℝ)],
      (r.id, r.score) ∈
        computeScores Real.log
          ([{ term := "hello", idf := Real.log ((1 : ℝ) / 2),
              docs := [{ doc_id := cId1, tf := 1 }] }].filter
            (fun e => (tokenize "hello").contains e.term)) :=
  ⟨rfl, search_result_scores "hello" 25 _ [cDocHello] _ rfl⟩

/-! ## Claim C3: counterexample and witness -/

/-- C3 counterexample: with two scored candidates and the integer limit
-1, Python slicing `sorted_docs[:-1]` keeps the first candidate instead
of bounding the count by the limit: the result list has length 1, and
1 is not at most -1.  So the claim fails for negative integer limits. -/
theorem search_negative_limit_exceeds :
    search_images Real.log "hello" (-1)
      [{ term := "hello", idf := (2 : ℝ),
         docs := [{ doc_id := cId1, tf := 1 }, { doc_id := cId2, tf := 1 }] }]
      [cDocHello, cDocWorld] =
      .ok [{ id := cId1, file_url := "", alt := "hello", caption := "",
             page_url := "", domain := "", format := "", snippet := "hello",
             score := 0 + (1 + Real.log ((1 : Nat) : ℝ)) * 2 }] ∧
      ¬ ((([({ id := cId1, file_url := "", alt := "hello", caption := "",
               page_url := "", domain := "", format := "", snippet := "hello",
               score := 0 + (1 + Real.log ((1 : Nat) : ℝ)) * 2 } :
                 SearchResult ℝ)].length : Int)) ≤ -1) := by
  constructor
  · have hs : sortDesc (computeScores Real.log
        (List.filter (fun e => (tokenize "hello").contains e.term)
          [{ term := "hello", idf := (2 : ℝ),
             docs := [{ doc_id := cId1, tf := 1 },
                      { doc_id := cId2, tf := 1 }] }])) =
        [(cId1, 0 + (1 + Real.log ((1 : Nat) : ℝ)) * 2),
         (cId2, 0 + (1 + Real.log ((1 : Nat) : ℝ)) * 2)] := by
      show insertDesc (cId1, 0 + (1 + Real.log ((1 : Nat) : ℝ)) * 2)
        (insertDesc (cId2, 0 + (1 + Real.log ((1 : Nat) : ℝ)) * 2) []) = _
      show insertDesc (cId1, 0 + (1 + Real.log ((1 : Nat) : ℝ)) * 2)
        [(cId2, 0 + (1 + Real.log ((1 : Nat) : ℝ)) * 2)] = _
      simp only [insertDesc]
      rw [if_neg (lt_irrefl _)]
    simp only [search_images]
    rw [hs]
    rfl
  · simp

/-- C3 witness: the amended top-k theorem applied at the non-negative
limit 25 with an empty query. -/
theorem search_sorted_and_bounded_witness :
    (0 : Int) ≤ 25 ∧
    search_images Real.log "the" 25 [] [] = .ok [] ∧
    (List.Pairwise (fun a b : SearchResult ℝ => b.score ≤ a.score) [] ∧
      ((([] : List (SearchResult ℝ)).length : Int) ≤ 25)) :=
  ⟨by decide, rfl, search_sorted_and_bounded "the" 25 [] [] [] (by decide) rfl⟩

/-! ## Claim C6: witness -/

/-- C6 witness: the query "the" tokenizes to nothing and search returns
the empty result list over a nonempty index state. -/
theorem search_empty_terms_witness :
    tokenize "the" = [] ∧
    search_images Real.log "the" 25
      [{ term := "xyz", idf := (1 : ℝ), docs := [{ doc_id := cId1, tf := 1 }] }]
      [cDocHello] = .ok [] :=
  ⟨rfl, search_empty_terms_or_postings "the" 25 _ [cDocHello] (Or.inl rfl)⟩

/-! ## Claim C7: witness -/

/-- C7 witness: additivity evaluated on a two-entry index in which
document cId1 carries postings for both query terms. -/
theorem docScore_two_terms_additive_witness :
    ("aaa" : String) ≠ "bbb" ∧
    docScore Real.log
      [{ term := "aaa", idf := (0 : ℝ), docs := [{ doc_id := cId1, tf := 2 }] },
       { term := "bbb", idf := (1 : ℝ), docs := [{ doc_id := cId1, tf := 1 }] }]
      ["aaa", "bbb"] cId1 =
      docScore Real.log
        [{ term := "aaa", idf := (0 : ℝ), docs := [{ doc_id := cId1, tf := 2 }] },
         { term := "bbb", idf := (1 : ℝ), docs := [{ doc_id := cId1, tf := 1 }] }]
        ["aaa"] cId1 +
      docScore Real.log
        [{ term := "aaa", idf := (0 : ℝ), docs := [{ doc_id := cId1, tf := 2 }] },
         { term := "bbb", idf := (1 : ℝ), docs := [{ doc_id := cId1, tf := 1 }] }]
        ["bbb"] cId1 := by
  refine ⟨by decide, ?_⟩
  apply docScore_two_terms_additive _ "aaa" "bbb" cId1 (by decide)
  · exact ⟨_, List.mem_cons_self _ _, rfl, _, List.mem_cons_self _ _, rfl⟩
  · exact ⟨_, List.mem_cons_of_mem _ (List.mem_cons_self _ _), rfl,
      _, List.mem_cons_self _ _, rfl⟩

/-! ## Claim C8: witness -/

/-- C8 witness: a two-record corpus with one token-less record; the
build succeeds, the token-less record appears nowhere in the output,
and the only Document Entry traces back to the token-yielding record. -/
theorem build_excludes_tokenless_witness :
    build_core Real.log [cRecEmpty, cRecHello] = some ([cDocHello],
      [{ term := "hello",
         idf := Real.log (((1 : Nat) : ℝ) / (1 + ((1 : Nat) : ℝ))),
         docs := [{ doc_id := cId1, tf := 1 }] }]) ∧
    ([cRecEmpty, cRecHello].map (fun r => r._id)).Nodup ∧
    recordTokens cRecEmpty = [] ∧
    ((∀ r ∈ [cRecEmpty, cRecHello], recordTokens r = [] →
      (∀ d ∈ [cDocHello], d._id ≠ r._id) ∧
        ∀ e ∈ [({ term := "hello",
                  idf := Real.log (((1 : Nat) : ℝ) / (1 + ((1 : Nat) : ℝ))),
                  docs := [{ doc_id := cId1, tf := 1 }] } : TermEntry ℝ)],
          ∀ p ∈ e.docs, p.doc_id ≠ r._id) ∧
    ∀ d ∈ [cDocHello], ∃ rec ∈ [cRecEmpty, cRecHello],
      rec._id = d._id ∧ recordTokens rec ≠ []) :=
  ⟨rfl, by decide, rfl,
    build_excludes_tokenless [cRecEmpty, cRecHello] [cDocHello] _ rfl (by decide)⟩

/-! ## Claim C9: witness -/

/-- C9 witness: a build over a single token-less record leaves a
previously persisted nonempty index untouched. -/
theorem build_abort_preserves_prev_witness :
    recordTokens cRecEmpty = [] ∧
    build_image_index Real.log [cRecEmpty] [cDocHello]
      [{ term := "old", idf := (1 : ℝ), docs := [{ doc_id := cId1, tf := 1 }] }] =
      ([cDocHello],
       [{ term := "old", idf := (1 : ℝ), docs := [{ doc_id := cId1, tf := 1 }] }]) :=
  ⟨rfl, build_abort_preserves_prev [cRecEmpty] [cDocHello] _
    (Or.inr (List.forall_mem_singleton.mpr rfl))⟩

/-! ## Claim C10: a malformed stored document id makes search raise -/

/-- C10: an index state whose posting holds a string document id that
is not a 24-character hexadecimal ObjectId makes search_images raise
InvalidId in the ObjectId coercion step instead of returning a result
list, so the query path is not total over all persisted index
contents. -/
theorem search_invalid_objectid_raises :
    search_images Real.log "badterm" 25
      [{ term := "badterm", idf := (0 : ℝ),
         docs := [{ doc_id := .strId "nothex", tf := 1 }] }] [] =
      .error (invalidIdError "nothex") := rfl

end ImageSearch
